import Mathlib

/-!
Shallow embedding of the HotelData pipeline (data_preprocessing.py,
ingredient_prediction.py, staffing_optimization.py, notifications.py).

Modelling conventions:
* Instants in time are integers counting minutes since the Unix epoch;
  calendar formatting (strftime) is implemented with the standard civil
  calendar algorithm.  `datetime.now()` / `pd.Timestamp.now()` calls in the
  source become an explicit `now : Int` parameter.
* Pandas dataframes become lists of records; Python dicts become
  insertion-ordered association lists (`upsertAdd` mirrors
  `d[k] = d.get(k, 0) + v` patterns, `upsertSet` mirrors `d[k] = v`).
* Numbers are exact rationals; binary floating point representation error
  is abstracted away.  Python `int(x)` truncation toward zero is `pyInt`,
  `round(x, 2)` (round half to even) is `round2`.
* `pd.to_datetime` is an external library call; it is modelled by
  `toDatetime`, a parser from timestamp strings to epoch instants whose
  failure carries the pandas-style message naming the unparseable value.
-/

set_option maxRecDepth 10000
set_option maxHeartbeats 2000000

namespace HotelData

/-! ## Python numeric semantics -/

/-- Python `int(x)` on a real value: truncation toward zero. -/
def pyInt (q : ℚ) : ℤ := if 0 ≤ q then ⌊q⌋ else ⌈q⌉

/-- Round to the nearest integer, ties to even (Python `round`). -/
def roundHalfEven (q : ℚ) : ℤ :=
  let f := ⌊q⌋
  let r := q - (f : ℚ)
  if r < 1/2 then f
  else if 1/2 < r then f + 1
  else if f % 2 = 0 then f else f + 1

/-- Python `round(x, 2)`. -/
def round2 (q : ℚ) : ℚ := ((roundHalfEven (q * 100) : ℤ) : ℚ) / 100

/-- Python `f-string` formatting `:.1f` (one decimal place). -/
def pyFmt1 (q : ℚ) : String :=
  let n := roundHalfEven (q * 10)
  (if n < 0 then "-" else "") ++ toString (n.natAbs / 10) ++ "." ++ toString (n.natAbs % 10)

/-! ## Association lists with Python dict semantics -/

/-- Dict lookup, `d.get(k)`. -/
def lookup? {α : Type} (k : String) : List (String × α) → Option α
  | [] => none
  | (k0, v0) :: rest => if k0 = k then some v0 else lookup? k rest

/-- `d[k] = d.get(k, 0) + v`: add into an existing key in place, else append. -/
def upsertAdd (m : List (String × ℚ)) (k : String) (v : ℚ) : List (String × ℚ) :=
  match m with
  | [] => [(k, v)]
  | (k0, v0) :: rest => if k0 = k then (k0, v0 + v) :: rest else (k0, v0) :: upsertAdd rest k v

/-- `d[k] = v`: replace an existing key in place, else append. -/
def upsertSet {α : Type} (m : List (String × α)) (k : String) (v : α) : List (String × α) :=
  match m with
  | [] => [(k, v)]
  | (k0, v0) :: rest => if k0 = k then (k0, v) :: rest else (k0, v0) :: upsertSet rest k v

/-! ## Sorting

The sorts in the source are library calls (`DataFrame.sort_values`,
Python `sorted`).  They are modelled by a stable insertion sort, matching
Python `sorted` exactly; pandas `sort_values` uses an unstable quicksort,
so only the relative order of tied keys could differ, and no claim depends
on the order of ties. -/

/-- Insert into a descending-sorted list, before the first strictly smaller
key (stable: ties keep their original relative order). -/
def insertDesc {α : Type} (key : α → ℚ) (x : α) : List α → List α
  | [] => [x]
  | y :: ys => if key y ≤ key x then x :: y :: ys else y :: insertDesc key x ys

/-- Stable sort by descending key. -/
def sortDescBy {α : Type} (key : α → ℚ) (l : List α) : List α :=
  l.foldr (insertDesc key) []

/-- Insert into an ascending-sorted list of strings. -/
def insertAsc (x : String) : List String → List String
  | [] => [x]
  | y :: ys => if x ≤ y then x :: y :: ys else y :: insertAsc x ys

/-- Sort strings ascending (the key order of a pandas groupby). -/
def sortAsc (l : List String) : List String :=
  l.foldr insertAsc []

/-! ## Calendar (strftime) -/

/-- Civil date (year, month, day) from a day count since 1970-01-01
(standard era-based algorithm). -/
def civilFromDays (z0 : Int) : Int × Int × Int :=
  let z := z0 + 719468
  let era := z.fdiv 146097
  let doe := z - era * 146097
  let yoe := (doe - doe.fdiv 1460 + doe.fdiv 36524 - doe.fdiv 146096).fdiv 365
  let y := yoe + era * 400
  let doy := doe - (365 * yoe + yoe.fdiv 4 - yoe.fdiv 100)
  let mp := (5 * doy + 2).fdiv 153
  let d := doy - (153 * mp + 2).fdiv 5 + 1
  let m := mp + (if mp < 10 then 3 else -9)
  (y + (if m ≤ 2 then 1 else 0), m, d)

def weekdayName (day : Int) : String :=
  match (day + 4).emod 7 with
  | 0 => "Sunday" | 1 => "Monday" | 2 => "Tuesday" | 3 => "Wednesday"
  | 4 => "Thursday" | 5 => "Friday" | _ => "Saturday"

def monthAbbrev (m : Int) : String :=
  match m with
  | 1 => "Jan" | 2 => "Feb" | 3 => "Mar" | 4 => "Apr" | 5 => "May" | 6 => "Jun"
  | 7 => "Jul" | 8 => "Aug" | 9 => "Sep" | 10 => "Oct" | 11 => "Nov" | _ => "Dec"

def pad2 (n : Int) : String := if n < 10 then "0" ++ toString n else toString n

/-- Day index of an instant (minutes since the epoch). -/
def dayOf (t : Int) : Int := t.fdiv 1440

/-- strftime `%Y-%m-%d` of an instant. -/
def fmtYmd (t : Int) : String :=
  let c := civilFromDays (dayOf t)
  toString c.1 ++ "-" ++ pad2 c.2.1 ++ "-" ++ pad2 c.2.2

/-- strftime `%A, %b %d` of an instant. -/
def fmtAbD (t : Int) : String :=
  let c := civilFromDays (dayOf t)
  weekdayName (dayOf t) ++ ", " ++ monthAbbrev c.2.1 ++ " " ++ pad2 c.2.2

/-! ## pandas helpers -/

/-- `df.iloc[-n:]`: the last `n` rows.  For `n = 0` Python slicing gives the
whole frame (`l[-0:] = l`), a quirk we keep. -/
def ilocLast {α : Type} (n : ℕ) (l : List α) : List α :=
  if n = 0 then l else l.drop (l.length - n)

def isDigitChar (c : Char) : Bool := decide ('0' ≤ c) && decide (c ≤ '9')

def parseNatAux : List Char → ℕ → Option ℕ
  | [], acc => some acc
  | c :: cs, acc =>
    if isDigitChar c then parseNatAux cs (acc * 10 + (c.toNat - 48)) else none

/-- Parse a non-empty all-digit character list as a natural number. -/
def parseNat : List Char → Option ℕ
  | [] => none
  | c :: cs => parseNatAux (c :: cs) 0

/-- Model of `pd.to_datetime` on one cell: ISO-like timestamp strings are
abstracted to decimal strings of epoch minutes; anything else fails with
the pandas-style message naming the unparseable value (not the column). -/
def toDatetime (s : String) : Except String Int :=
  match parseNat s.data with
  | some n => .ok (n : ℤ)
  | none => .error ("Unknown datetime string format, unable to parse: " ++ s)

instance {ε α : Type} [DecidableEq ε] [DecidableEq α] : DecidableEq (Except ε α) :=
  fun a b =>
  match a, b with
  | .error e1, .error e2 =>
    if h : e1 = e2 then .isTrue (by rw [h]) else .isFalse (fun hh => h (Except.error.inj hh))
  | .ok a1, .ok a2 =>
    if h : a1 = a2 then .isTrue (by rw [h]) else .isFalse (fun hh => h (Except.ok.inj hh))
  | .error e1, .ok a2 => .isFalse (fun hh => Except.noConfusion hh)
  | .ok a1, .error e2 => .isFalse (fun hh => Except.noConfusion hh)

/-! ## Data model (src/data_preprocessing.py) -/

/-- One raw order line item as fed to the preprocessor.  `itemQuantity` and
`itemPrice` can be missing (NaN); timestamps arrive as strings. -/
structure RawOrder where
  itemName : String
  itemQuantity : Option ℚ
  itemPrice : Option ℚ
  status : String
  createdAt : String
  updatedAt : String
deriving DecidableEq

/-- A preprocessed row.  The calendar display columns (`order_hour`,
`order_day`, `order_month`, `order_year`, `is_weekend`) are pure functions
of `createdAt` used only for charts; no claim mentions them and they are
omitted from the record. -/
structure Order where
  itemName : String
  itemQuantity : ℚ
  itemPrice : ℚ
  status : String
  createdAt : Int
  updatedAt : Int
  processing_time : ℚ
  total_price : ℚ
  is_completed : Bool
  is_canceled : Bool
deriving DecidableEq

/-- One row after parsing: derived per-row columns (`processing_time`,
NaN-filling of price/quantity, `total_price`, status flags) are pure
functions of the raw row and its parsed timestamps, so computing them at
construction commutes with the row filters that the source applies in
between. -/
def mkRow (p : RawOrder × Int × Int) : Order :=
  { itemName := p.1.itemName
    itemQuantity := p.1.itemQuantity.getD 0
    itemPrice := p.1.itemPrice.getD 0
    status := p.1.status
    createdAt := p.2.1
    updatedAt := p.2.2
    processing_time := ((p.2.2 - p.2.1 : ℤ) : ℚ)
    total_price := (p.1.itemPrice.getD 0) * (p.1.itemQuantity.getD 0)
    is_completed := p.1.status.toLower == "completed"
    is_canceled := p.1.status.toLower == "canceled" }

/-- The three row filters of the preprocessor, in source order:
`itemQuantity > 0`, then `itemPrice >= 0`, then `createdAt <= now`. -/
def cleanRows (now : Int) (rows : List Order) : List Order :=
  ((rows.filter (fun r => 0 < r.itemQuantity)).filter
    (fun r => 0 ≤ r.itemPrice)).filter (fun r => r.createdAt ≤ now)

/-- `load_and_preprocess_data` (src/data_preprocessing.py).  `now` is
`pd.Timestamp.now()`.  The source parses the `createdAt` column, then the
`updatedAt` column (an unparseable cell raises out of the whole function),
adds the derived per-row columns, fills missing price/quantity with 0, then
filters the rows. -/
def load_and_preprocess_data (now : Int) (df : List RawOrder) :
    Except String (List Order) :=
  match df.mapM (fun r => toDatetime r.createdAt) with
  | .error e => .error e
  | .ok created =>
    match df.mapM (fun r => toDatetime r.updatedAt) with
    | .error e => .error e
    | .ok updated => .ok (cleanRows now ((df.zip (created.zip updated)).map mkRow))

/-! ## Forecast series (output of src/forecasting.py, input downstream)

`forecast_peak_times` wraps the external Prophet library; its output is a
dataframe whose claim-relevant columns are `ds` (the day, an instant) and
the point estimate `yhat` with bounds `yhat_lower`, `yhat_upper`. -/

structure ForecastRow where
  ds : Int
  yhat : ℚ
  yhat_lower : ℚ
  yhat_upper : ℚ
deriving DecidableEq

/-! ## Ingredient projection (src/ingredient_prediction.py) -/

/-- `df.groupby('itemName')['itemQuantity'].sum()` restricted to one item. -/
def sumQuantities (df : List Order) (item : String) : ℚ :=
  ((df.filter (fun r => r.itemName = item)).map (fun r => r.itemQuantity)).sum

/-- `df['itemQuantity'].sum()`. -/
def totalQuantity (df : List Order) : ℚ :=
  (df.map (fun r => r.itemQuantity)).sum

/-- `item_distribution`: each item name paired with its share of the total
ordered quantity.  Pandas `groupby` iterates keys in sorted order. -/
def itemDistribution (df : List Order) : List (String × ℚ) :=
  (sortAsc ((df.map (fun r => r.itemName)).dedup)).map
    (fun it => (it, sumQuantities df it / totalQuantity df))

/-- Inner loop over one item's recipe entries: add
`expected_quantity * qty_per_item` into the day's dict per ingredient. -/
def itemContribution (acc : List (String × ℚ)) (expected_quantity : ℚ)
    (ings : List (String × ℚ)) : List (String × ℚ) :=
  ings.foldl (fun a p => upsertAdd a p.1 (expected_quantity * p.2)) acc

/-- The loop over the item distribution: items missing from the recipe are
silently skipped, items present contribute via `itemContribution`. -/
def distFold (ingredient_mapping : List (String × List (String × ℚ)))
    (forecasted_orders : ℚ) (dist : List (String × ℚ))
    (acc : List (String × ℚ)) : List (String × ℚ) :=
  dist.foldl (fun acc p =>
    match lookup? p.1 ingredient_mapping with
    | some ings => itemContribution acc (forecasted_orders * p.2) ings
    | none => acc) acc

/-- One day of `predict_ingredient_usage`: loop over the item distribution,
skip items missing from the recipe, accumulate per-ingredient quantities,
then round every entry to 2 decimals. -/
def dayIngredients (dist : List (String × ℚ))
    (ingredient_mapping : List (String × List (String × ℚ)))
    (forecasted_orders : ℚ) : List (String × ℚ) :=
  (distFold ingredient_mapping forecasted_orders dist []).map
    (fun p => (p.1, round2 p.2))

/-- `predict_ingredient_usage` (src/ingredient_prediction.py): for the last
`days_to_forecast` forecast rows, key the day's per-ingredient totals by the
`%Y-%m-%d` date string of `ds`, using the raw (unclamped) `yhat`. -/
def predict_ingredient_usage (df : List Order) (forecast_df : List ForecastRow)
    (ingredient_mapping : List (String × List (String × ℚ)))
    (days_to_forecast : ℕ) : List (String × List (String × ℚ)) :=
  let forecast_period := ilocLast days_to_forecast forecast_df
  let dist := itemDistribution df
  forecast_period.foldl (fun acc row =>
    upsertSet acc (fmtYmd row.ds) (dayIngredients dist ingredient_mapping row.yhat)) []

/-! ## Staffing optimization (src/staffing_optimization.py) -/

/-- One per-day staffing record.  Python builds a dict whose role keys are
present only for enabled roles; absent keys are `none` here. -/
structure StaffingDay where
  date : Int
  predicted_orders : ℤ
  lower_bound : ℤ
  upper_bound : ℤ
  total_staff : ℤ
  chefs : Option ℤ
  waiters : Option ℤ
  kitchen_helpers : Option ℤ
  bartenders : Option ℤ
deriving DecidableEq

def defaultStaffTypes : List String := ["Chefs", "Waiters", "Kitchen helpers"]

/-- The per-row body of the `optimize_staffing` loop. -/
def staffingDayOf (orders_per_staff : ℚ) (min_staff : ℤ) (prep_time_factor : ℚ)
    (staff_types : List String) (row : ForecastRow) : StaffingDay :=
  let predicted_orders := max row.yhat 0
  let lower_bound := max row.yhat_lower 0
  let upper_bound := max row.yhat_upper 0
  let adjusted_orders := predicted_orders * prep_time_factor
  let hourly_order_rate := adjusted_orders / 12
  let total_staff_needed : ℤ := max ⌈hourly_order_rate / orders_per_staff⌉ min_staff
  { date := row.ds
    predicted_orders := pyInt predicted_orders
    lower_bound := pyInt lower_bound
    upper_bound := pyInt upper_bound
    total_staff := total_staff_needed
    chefs := if "Chefs" ∈ staff_types then
        some (max (pyInt ((total_staff_needed : ℚ) * (35/100))) 1) else none
    waiters := if "Waiters" ∈ staff_types then
        some (max (pyInt ((total_staff_needed : ℚ) * (40/100))) 1) else none
    kitchen_helpers := if "Kitchen helpers" ∈ staff_types then
        some (max (pyInt ((total_staff_needed : ℚ) * (15/100))) 1) else none
    bartenders := if "Bartenders" ∈ staff_types then
        some (max (pyInt ((total_staff_needed : ℚ) * (10/100))) 1) else none }

/-- `optimize_staffing` (src/staffing_optimization.py).  `now` is
`datetime.now()`; only strictly future forecast rows are kept.  A `none`
`staff_types` argument selects the default role list. -/
def optimize_staffing (now : Int) (forecast_df : List ForecastRow)
    (orders_per_staff : ℚ) (min_staff : ℤ) (prep_time_factor : ℚ)
    (staff_types : Option (List String)) : List StaffingDay :=
  let st := staff_types.getD defaultStaffTypes
  (forecast_df.filter (fun r => now < r.ds)).map
    (staffingDayOf orders_per_staff min_staff prep_time_factor st)

/-! ## Alert formatting (src/notifications.py) -/

/-- `sort_values(by='yhat', ascending=False)`.  The pandas sort is an
unstable quicksort; a deterministic descending sort models it (no claim
depends on the relative order of ties). -/
def sortByYhatDesc (l : List ForecastRow) : List ForecastRow :=
  sortDescBy (fun r => r.yhat) l

/-- Peak selection inside `format_peak_time_alert`: restrict to the last 7
rows, then branch on the truthiness of `threshold` (`if threshold:`), so
`None` and `0` both take the unfiltered branch. -/
def selectPeaks (forecast_df : List ForecastRow) (threshold : Option ℚ)
    (top_n : ℕ) : List ForecastRow :=
  let next_week := ilocLast 7 forecast_df
  if threshold.getD 0 ≠ 0 then
    (sortByYhatDesc (next_week.filter (fun r => threshold.getD 0 < r.yhat))).take top_n
  else
    (sortByYhatDesc next_week).take top_n

/-- The numbered peak lines of the message body. -/
def peakLines (peaks : List ForecastRow) : String :=
  (peaks.enum.map (fun p =>
    toString (p.1 + 1) ++ ". " ++ fmtAbD p.2.ds ++ ": ~" ++
      toString (pyInt p.2.yhat) ++ " orders\n")).foldl (fun a s => a ++ s) ""

/-- `format_peak_time_alert` (src/notifications.py). -/
def format_peak_time_alert (forecast_df : List ForecastRow)
    (threshold : Option ℚ) (top_n : ℕ) : String :=
  "🏨 HOTEL ORDER FORECAST ALERT 🏨\n\n" ++
  "Expected peak order times for the coming week:\n\n" ++
  peakLines (selectPeaks forecast_df threshold top_n) ++
  "\nThis forecast helps you prepare staffing and inventory in advance."

/-- `format_inventory_alert` (src/notifications.py).  The `threshold_pct`
parameter is accepted and never used, as in the source. -/
def format_inventory_alert (ingredient_forecast : List (String × List (String × ℚ)))
    (threshold_pct : ℚ) : String :=
  let total_ingredients := ingredient_forecast.foldl (fun acc day =>
    day.2.foldl (fun a p => upsertAdd a p.1 p.2) acc) []
  let sorted_ingredients := sortDescBy (fun p => p.2) total_ingredients
  let top_ingredients := sorted_ingredients.take 5
  "🥗 INGREDIENT INVENTORY ALERT 🥗\n\n" ++
  "Top 5 ingredients needed for the coming week:\n\n" ++
  (top_ingredients.enum.map (fun p =>
    toString (p.1 + 1) ++ ". " ++ p.2.1 ++ ": " ++ pyFmt1 p.2.2 ++
      " units\n")).foldl (fun a s => a ++ s) "" ++
  "\nMake sure to stock up on these ingredients to meet demand."

/-- One per-day block of the staffing message: the `Date:` line followed by
one line per non-date column whose cell is not NaN (columns in first
insertion order: the numeric summary columns, then the enabled roles). -/
def staffingBlock (row : StaffingDay) : String :=
  "Date: " ++ fmtAbD row.date ++ "\n" ++
  "- predicted_orders: " ++ toString row.predicted_orders ++ "\n" ++
  "- lower_bound: " ++ toString row.lower_bound ++ "\n" ++
  "- upper_bound: " ++ toString row.upper_bound ++ "\n" ++
  "- total_staff: " ++ toString row.total_staff ++ "\n" ++
  (match row.chefs with | some c => "- Chefs: " ++ toString c ++ "\n" | none => "") ++
  (match row.waiters with | some c => "- Waiters: " ++ toString c ++ "\n" | none => "") ++
  (match row.kitchen_helpers with
   | some c => "- Kitchen helpers: " ++ toString c ++ "\n" | none => "") ++
  (match row.bartenders with
   | some c => "- Bartenders: " ++ toString c ++ "\n" | none => "") ++
  "\n"

/-- `format_staffing_alert` (src/notifications.py).  With a `date_filter`
it keeps the records of that calendar day; otherwise it reads the clock
(`datetime.now()`, the explicit `now` here) and keeps the records of the
next three calendar days. -/
def format_staffing_alert (now : Int) (staffing_results : List StaffingDay)
    (date_filter : Option Int) : String :=
  let staff_df : List StaffingDay := match date_filter with
    | some d => staffing_results.filter (fun r => fmtYmd r.date == fmtYmd d)
    | none =>
      let next_3_days := [fmtYmd (now + 1440), fmtYmd (now + 2880), fmtYmd (now + 4320)]
      staffing_results.filter (fun r => next_3_days.contains (fmtYmd r.date))
  "👥 STAFFING REQUIREMENTS ALERT 👥\n\n" ++
  (if staff_df.length = 0 then "No staffing data available for the requested period."
   else (staff_df.map staffingBlock).foldl (fun a s => a ++ s) "") ++
  "Please adjust staffing schedules accordingly to ensure proper coverage during peak times."

/-! ## Helper lemmas -/

theorem pyInt_eq_floor_of_nonneg (q : ℚ) (h : 0 ≤ q) : pyInt q = ⌊q⌋ := by
  simp [pyInt, h]

/-! ## Concrete fixtures used by counterexamples and witnesses -/

/-- A cleaned one-item history: 100 Burgers. -/
def burgerRow : Order :=
  { itemName := "Burger", itemQuantity := 100, itemPrice := 5, status := "completed",
    createdAt := 0, updatedAt := 0, processing_time := 0, total_price := 500,
    is_completed := true, is_canceled := false }

/-- A forecast day (1970-01-02) with a negative point estimate. -/
def negDay : ForecastRow := ⟨1440, -10, -12, -8⟩

/-- A forecast day (1970-01-02) with point estimate 50. -/
def fiftyDay : ForecastRow := ⟨1440, 50, 40, 60⟩

/-- A staffing record for 1970-01-03. -/
def sampleStaffDay : StaffingDay :=
  { date := 2880, predicted_orders := 10, lower_bound := 8, upper_bound := 12,
    total_staff := 2, chefs := some 1, waiters := some 1, kitchen_helpers := some 1,
    bartenders := none }

/-! ## Claims -/

/-- C9: for every forecast series and every `top_n`, calling the peak-time
alert formatter with `threshold = 0` produces exactly the same message as
calling it with no threshold, because the source tests `if threshold:`
(truthiness) rather than `threshold is not None`. -/
theorem c9_zero_threshold_as_none (forecast_df : List ForecastRow) (top_n : ℕ) :
    format_peak_time_alert forecast_df (some 0) top_n =
      format_peak_time_alert forecast_df none top_n := by
  simp [format_peak_time_alert, selectPeaks]

/-- C6 (counterexample): the staffing alert formatter called twice with the
byte-identical explicit arguments (`sampleStaffDay`, no date filter) returns
different strings when the ambient clock differs, because the default branch
selects the three calendar days after `datetime.now()`.  So it is not a pure
function of its explicit arguments. -/
theorem c6_cex :
    format_staffing_alert 0 [sampleStaffDay] none ≠
      format_staffing_alert 14400 [sampleStaffDay] none := by
  exact of_decide_eq_true (by with_unfolding_all rfl)

/-- C6 (amended): the peak-time and inventory formatters take no ambient
state at all in this embedding (they read neither clock nor configuration),
and the staffing formatter is a pure function of its explicit arguments
whenever a `date_filter` is supplied: its output is then independent of the
clock.  Only the staffing formatter with `date_filter = None` depends on the
current time. -/
theorem c6_staffing_pure_given_filter (t t' : Int) (rs : List StaffingDay) (d : Int) :
    format_staffing_alert t rs (some d) = format_staffing_alert t' rs (some d) := rfl

/-- C2: the staffing plan has exactly one record per strictly-future
forecast row, in order, and for `orders_per_staff > 0`, `min_staff ≥ 1`,
`prep_time_factor > 0` the `i`-th record carries the `i`-th future row's
date and satisfies, with THAT row's own point estimate,
`total_staff = max ⌈(max yhat 0 * p / 12) / o⌉ m`; in particular
`total_staff ≥ min_staff` for every record. -/
theorem c2_total_staff_formula (now : Int) (fc : List ForecastRow)
    (o : ℚ) (m : ℤ) (p : ℚ) (st : Option (List String))
    (ho : 0 < o) (hm : 1 ≤ m) (hp : 0 < p) :
    (optimize_staffing now fc o m p st).length =
      (fc.filter (fun r => now < r.ds)).length ∧
    ∀ (i : ℕ) (hi : i < (optimize_staffing now fc o m p st).length)
      (hf : i < (fc.filter (fun r => now < r.ds)).length),
      ((optimize_staffing now fc o m p st).get ⟨i, hi⟩).date =
        ((fc.filter (fun r => now < r.ds)).get ⟨i, hf⟩).ds ∧
      ((optimize_staffing now fc o m p st).get ⟨i, hi⟩).total_staff =
        max ⌈(max ((fc.filter (fun r => now < r.ds)).get ⟨i, hf⟩).yhat 0 * p / 12) / o⌉ m ∧
      m ≤ ((optimize_staffing now fc o m p st).get ⟨i, hi⟩).total_staff := by
  constructor
  · simp [optimize_staffing]
  · intro i hi hf
    have hg : (optimize_staffing now fc o m p st).get ⟨i, hi⟩ =
        staffingDayOf o m p (st.getD defaultStaffTypes)
          ((fc.filter (fun r => now < r.ds)).get ⟨i, hf⟩) := by
      simp [optimize_staffing, List.getElem_map]
    rw [hg]
    exact ⟨rfl, rfl, le_max_right _ _⟩

/-- The forecast row of the C2 witness: 10 orders on 1970-01-02. -/
def tenDay : ForecastRow := ⟨1440, 10, 8, 12⟩

/-- C2 (witness): a forecast of 10 orders/day with `orders_per_staff = 5`,
`min_staff = 2`, `prep_time_factor = 1` gives a one-record plan whose
record carries that row's date and satisfies the formula with that row's
own point estimate; concretely `total_staff = 2`. -/
theorem c2_wit :
    ((optimize_staffing 0 [tenDay] 5 2 1 none).length =
      (([tenDay] : List ForecastRow).filter (fun r => (0 : Int) < r.ds)).length) ∧
    (((optimize_staffing 0 [tenDay] 5 2 1 none).get ⟨0, by decide⟩).date =
      ((([tenDay] : List ForecastRow).filter (fun r => (0 : Int) < r.ds)).get ⟨0, by decide⟩).ds ∧
     ((optimize_staffing 0 [tenDay] 5 2 1 none).get ⟨0, by decide⟩).total_staff =
      max ⌈(max ((([tenDay] : List ForecastRow).filter
        (fun r => (0 : Int) < r.ds)).get ⟨0, by decide⟩).yhat 0 * 1 / 12) / 5⌉ 2 ∧
     (2 : ℤ) ≤ ((optimize_staffing 0 [tenDay] 5 2 1 none).get ⟨0, by decide⟩).total_staff) ∧
    ((optimize_staffing 0 [tenDay] 5 2 1 none).get ⟨0, by decide⟩).total_staff = 2 := by
  have h := c2_total_staff_formula 0 [tenDay] 5 2 1 none
    (by norm_num) (by norm_num) (by norm_num)
  exact ⟨h.1, h.2 0 (by decide) (by decide),
    of_decide_eq_true (by with_unfolding_all rfl)⟩

/-- C7: in every staffing-plan record (for `min_staff ≥ 1`), each enabled
role's count is the fixed share of `total_staff` (Chefs 35 percent, Waiters
40, Kitchen helpers 15, Bartenders 10) floored to an integer and then
floored again at 1, hence at least 1; the shares do not depend on which
other roles are enabled (no renormalization), and disabled roles are absent
(`none`). -/
theorem c7_role_shares (now : Int) (fc : List ForecastRow)
    (o : ℚ) (m : ℤ) (p : ℚ) (st : Option (List String)) (hm : 1 ≤ m) :
    ∀ d ∈ optimize_staffing now fc o m p st,
      (d.chefs = if "Chefs" ∈ st.getD defaultStaffTypes then
          some (max ⌊(d.total_staff : ℚ) * (35/100)⌋ 1) else none) ∧
      (d.waiters = if "Waiters" ∈ st.getD defaultStaffTypes then
          some (max ⌊(d.total_staff : ℚ) * (40/100)⌋ 1) else none) ∧
      (d.kitchen_helpers = if "Kitchen helpers" ∈ st.getD defaultStaffTypes then
          some (max ⌊(d.total_staff : ℚ) * (15/100)⌋ 1) else none) ∧
      (d.bartenders = if "Bartenders" ∈ st.getD defaultStaffTypes then
          some (max ⌊(d.total_staff : ℚ) * (10/100)⌋ 1) else none) ∧
      (∀ c, d.chefs = some c → 1 ≤ c) ∧ (∀ c, d.waiters = some c → 1 ≤ c) ∧
      (∀ c, d.kitchen_helpers = some c → 1 ≤ c) ∧
      (∀ c, d.bartenders = some c → 1 ≤ c) := by
  intro d hd
  simp only [optimize_staffing, List.mem_map, List.mem_filter] at hd
  obtain ⟨r, ⟨_, _⟩, rfl⟩ := hd
  have htot : (1 : ℤ) ≤ (staffingDayOf o m p (st.getD defaultStaffTypes) r).total_staff := by
    simp only [staffingDayOf]
    exact le_trans hm (le_max_right _ _)
  have hcast : (0 : ℚ) ≤ ((staffingDayOf o m p (st.getD defaultStaffTypes) r).total_staff : ℚ) := by
    exact_mod_cast le_trans (by norm_num) htot
  constructor
  · simp only [staffingDayOf]
    rw [pyInt_eq_floor_of_nonneg _ (by positivity)]
  constructor
  · simp only [staffingDayOf]
    rw [pyInt_eq_floor_of_nonneg _ (by positivity)]
  constructor
  · simp only [staffingDayOf]
    rw [pyInt_eq_floor_of_nonneg _ (by positivity)]
  constructor
  · simp only [staffingDayOf]
    rw [pyInt_eq_floor_of_nonneg _ (by positivity)]
  refine ⟨?_, ?_, ?_, ?_⟩ <;>
    · intro c hc
      simp only [staffingDayOf] at hc
      split at hc
      · exact (Option.some_inj.mp hc) ▸ le_max_right _ _
      · exact absurd hc (by simp)

/-- C7 (witness): with only Chefs and Bartenders enabled, both get
`max ⌊2 · share⌋ 1 = 1` and the other two roles are absent, with no
renormalization of the shares. -/
theorem c7_wit :
    ((staffingDayOf 5 2 1 ["Chefs", "Bartenders"] ⟨1440, 10, 8, 12⟩).chefs =
        if "Chefs" ∈ (some ["Chefs", "Bartenders"] : Option (List String)).getD defaultStaffTypes then
          some (max ⌊((staffingDayOf 5 2 1 ["Chefs", "Bartenders"] ⟨1440, 10, 8, 12⟩).total_staff : ℚ) * (35/100)⌋ 1)
        else none) ∧
    ((staffingDayOf 5 2 1 ["Chefs", "Bartenders"] ⟨1440, 10, 8, 12⟩).waiters =
        if "Waiters" ∈ (some ["Chefs", "Bartenders"] : Option (List String)).getD defaultStaffTypes then
          some (max ⌊((staffingDayOf 5 2 1 ["Chefs", "Bartenders"] ⟨1440, 10, 8, 12⟩).total_staff : ℚ) * (40/100)⌋ 1)
        else none) := by
  have h := c7_role_shares 0 [⟨1440, 10, 8, 12⟩] 5 2 1 (some ["Chefs", "Bartenders"])
    (by norm_num) (staffingDayOf 5 2 1 ["Chefs", "Bartenders"] ⟨1440, 10, 8, 12⟩)
    (of_decide_eq_true (by with_unfolding_all rfl))
  exact ⟨h.1, h.2.1⟩

theorem mem_insertDesc {α : Type} (key : α → ℚ) (x a : α) :
    ∀ l : List α, a ∈ insertDesc key x l → a = x ∨ a ∈ l := by
  intro l
  induction l with
  | nil => simp [insertDesc]
  | cons y ys ih =>
    simp only [insertDesc]
    split
    · simp only [List.mem_cons]
      tauto
    · simp only [List.mem_cons]
      intro h
      rcases h with h | h
      · tauto
      · rcases ih h with h | h <;> tauto

theorem mem_sortDescBy {α : Type} (key : α → ℚ) (a : α) :
    ∀ l : List α, a ∈ sortDescBy key l → a ∈ l := by
  intro l
  induction l with
  | nil => simp [sortDescBy]
  | cons y ys ih =>
    intro h
    rcases mem_insertDesc key y a _ h with h | h
    · simp [h]
    · exact List.mem_cons_of_mem _ (ih h)

theorem ilocLast_seven_idem {α : Type} (l : List α) :
    ilocLast 7 (ilocLast 7 l) = ilocLast 7 l := by
  simp only [ilocLast, if_neg (by norm_num : ¬(7 : ℕ) = 0)]
  have h : (l.drop (l.length - 7)).length - 7 = 0 := by
    simp only [List.length_drop]
    omega
  rw [h, List.drop_zero]

/-- C10: the peak-time alert formatter looks only at the last 7 rows of the
forecast series: its output is unchanged if all earlier rows are removed,
and every selected peak is one of the last 7 rows.  Hence with a forecast
suffix longer than 7 days the earlier future days can never be reported,
and with a shorter suffix fitted historical rows can be reported. -/
theorem c10_last7_window (fc : List ForecastRow) (t : Option ℚ) (n : ℕ) :
    format_peak_time_alert fc t n = format_peak_time_alert (ilocLast 7 fc) t n ∧
    ∀ r ∈ selectPeaks fc t n, r ∈ ilocLast 7 fc := by
  have hsel : selectPeaks (ilocLast 7 fc) t n = selectPeaks fc t n := by
    unfold selectPeaks
    rw [ilocLast_seven_idem]
  constructor
  · unfold format_peak_time_alert
    rw [hsel]
  · intro r hr
    unfold selectPeaks at hr
    split at hr
    · have h1 := List.take_subset _ _ hr
      have h2 := mem_sortDescBy _ r _ h1
      exact List.mem_of_mem_filter h2
    · have h1 := List.take_subset _ _ hr
      exact mem_sortDescBy _ r _ h1

/-- An 8-row forecast whose largest point estimate sits on the first (8th
from last) row, which the formatter therefore cannot report. -/
def eightRows : List ForecastRow :=
  [⟨0, 100, 90, 110⟩, ⟨1440, 1, 0, 2⟩, ⟨2880, 2, 1, 3⟩, ⟨4320, 3, 2, 4⟩,
   ⟨5760, 4, 3, 5⟩, ⟨7200, 5, 4, 6⟩, ⟨8640, 6, 5, 7⟩, ⟨10080, 7, 6, 8⟩]

/-- C10 (witness): on `eightRows` the message equals the message computed
from the last 7 rows alone, and the top selected peak (point estimate 7,
not the global maximum 100) is one of the last 7 rows. -/
theorem c10_wit :
    format_peak_time_alert eightRows none 3 =
      format_peak_time_alert (ilocLast 7 eightRows) none 3 ∧
    (⟨10080, 7, 6, 8⟩ : ForecastRow) ∈ ilocLast 7 eightRows :=
  ⟨(c10_last7_window eightRows none 3).1,
   (c10_last7_window eightRows none 3).2 ⟨10080, 7, 6, 8⟩ (by decide)⟩

/-- A forecast day whose point estimate is negative (below a 0 threshold). -/
def lowDay : ForecastRow := ⟨0, -5, -6, -4⟩

/-- C8 (counterexample): with the numeric threshold 0 and a candidate day
whose point estimate -5 does not exceed it, the formatter does not filter at
all: the sub-threshold day is selected and the message is not the zero-line
wrapper, contradicting the claim for the numeric threshold 0 (Python
truthiness sends 0 down the unfiltered branch). -/
theorem c8_cex :
    selectPeaks [lowDay] (some 0) 3 = [lowDay] ∧ ¬((0 : ℚ) < lowDay.yhat) ∧
    format_peak_time_alert [lowDay] (some 0) 3 ≠
      "🏨 HOTEL ORDER FORECAST ALERT 🏨\n\nExpected peak order times for the coming week:\n\n\nThis forecast helps you prepare staffing and inventory in advance." := by
  exact of_decide_eq_true (by with_unfolding_all rfl)

/-- C8 (amended): for every NONZERO numeric threshold the claim holds: the
candidates (last 7 rows) are filtered to those whose point estimate strictly
exceeds the threshold before the top-N are taken, so every selected peak
exceeds the threshold; and if no candidate exceeds it, the message is the
static template wrapper with zero peak lines.  (Threshold 0 is excluded: it
is falsy in Python and behaves as if no threshold were given, see C9.) -/
theorem c8_nonzero_threshold (fc : List ForecastRow) (t : ℚ) (n : ℕ) (ht : t ≠ 0) :
    (∀ r ∈ selectPeaks fc (some t) n, t < r.yhat) ∧
    ((∀ r ∈ ilocLast 7 fc, r.yhat ≤ t) →
      format_peak_time_alert fc (some t) n =
        "🏨 HOTEL ORDER FORECAST ALERT 🏨\n\nExpected peak order times for the coming week:\n\n\nThis forecast helps you prepare staffing and inventory in advance.") := by
  constructor
  · intro r hr
    unfold selectPeaks at hr
    rw [if_pos (by simpa using ht)] at hr
    have h1 := List.take_subset _ _ hr
    have h2 := mem_sortDescBy _ r _ h1
    have h3 := List.of_mem_filter h2
    simpa using h3
  · intro hall
    have hfil : (ilocLast 7 fc).filter (fun r => decide ((some t : Option ℚ).getD 0 < r.yhat)) = [] := by
      rw [List.filter_eq_nil_iff]
      intro r hr
      simpa using not_lt.mpr (hall r hr)
    have hsel : selectPeaks fc (some t) n = [] := by
      unfold selectPeaks
      rw [if_pos (by simpa using ht), hfil]
      simp [sortByYhatDesc, sortDescBy]
    unfold format_peak_time_alert
    rw [hsel]
    rfl

/-- C8 (witness): threshold 100 with a single candidate at 200 selects it
(200 > 100); threshold 100 with all candidates at 5 yields the zero-line
wrapper message. -/
theorem c8_wit :
    (100 : ℚ) < (⟨0, 200, 150, 250⟩ : ForecastRow).yhat ∧
    format_peak_time_alert [⟨0, 5, 4, 6⟩] (some 100) 3 =
      "🏨 HOTEL ORDER FORECAST ALERT 🏨\n\nExpected peak order times for the coming week:\n\n\nThis forecast helps you prepare staffing and inventory in advance." :=
  ⟨(c8_nonzero_threshold [⟨0, 200, 150, 250⟩] 100 3 (by norm_num)).1
      ⟨0, 200, 150, 250⟩ (of_decide_eq_true (by with_unfolding_all rfl)),
   (c8_nonzero_threshold [⟨0, 5, 4, 6⟩] 100 3 (by norm_num)).2
      (of_decide_eq_true (by with_unfolding_all rfl))⟩

/-! ## Substring test (used to state what an error message mentions) -/

/-- The second character list occurs at the head of the first. -/
def startsWithChars : List Char → List Char → Bool
  | _, [] => true
  | [], _ :: _ => false
  | c :: cs, p :: ps => c = p && startsWithChars cs ps

/-- The second character list occurs somewhere inside the first. -/
def hasSubChars : List Char → List Char → Bool
  | [], pat => startsWithChars [] pat
  | c :: cs, pat => startsWithChars (c :: cs) pat || hasSubChars cs pat

/-- `sub` occurs as a substring of `s`. -/
def containsStr (s sub : String) : Bool := hasSubChars s.data sub.data

/-! ## mapM over Except -/

theorem except_bind_ok {α β : Type} (a : α) (f : α → Except String β) :
    (Except.ok a >>= f) = f a := rfl

theorem except_bind_error {α β : Type} (e : String) (f : α → Except String β) :
    ((Except.error e : Except String α) >>= f) = Except.error e := rfl

theorem mapM_ok_nil {α β : Type} (f : α → Except String β) (ys : List β)
    (h : ([] : List α).mapM f = .ok ys) : ys = [] := by
  rw [List.mapM_nil] at h
  injection h with h
  exact h.symm

theorem mapM_ok_cons {α β : Type} (f : α → Except String β) (x : α) (l : List α)
    (ys : List β) (h : (x :: l).mapM f = .ok ys) :
    ∃ y ys2, f x = .ok y ∧ l.mapM f = .ok ys2 ∧ ys = y :: ys2 := by
  rw [List.mapM_cons] at h
  cases hf : f x with
  | error e =>
    rw [hf, except_bind_error] at h
    cases h
  | ok y =>
    rw [hf, except_bind_ok] at h
    cases hm : l.mapM f with
    | error e =>
      rw [hm, except_bind_error] at h
      cases h
    | ok ys2 =>
      rw [hm, except_bind_ok] at h
      injection h with h
      exact ⟨y, ys2, rfl, rfl, h.symm⟩

theorem mapM_ok_of_mem {α β : Type} (f : α → Except String β) :
    ∀ (l : List α) (ys : List β), l.mapM f = .ok ys → ∀ x ∈ l, ∃ y, f x = .ok y := by
  intro l
  induction l with
  | nil =>
    intro ys _ x hx
    cases hx
  | cons z l ih =>
    intro ys h x hx
    obtain ⟨y, ys2, hz, hm, _⟩ := mapM_ok_cons f z l ys h
    rcases List.mem_cons.mp hx with rfl | hx2
    · exact ⟨y, hz⟩
    · exact ih ys2 hm x hx2

/-! ## Preprocessing row bookkeeping -/

/-- A raw row survives the preprocessor: after defaulting missing
price/quantity to 0, its quantity is positive, its price non-negative
and its parsed `createdAt` is not in the future. -/
def keptRaw (now : Int) (r : RawOrder) : Bool :=
  decide (0 < r.itemQuantity.getD 0) && decide (0 ≤ r.itemPrice.getD 0) &&
    (match toDatetime r.createdAt with
     | .ok c => decide (c ≤ now)
     | .error _ => false)

theorem cleanRows_cons (now : Int) (r : Order) (l : List Order) :
    cleanRows now (r :: l) =
      if 0 < r.itemQuantity ∧ 0 ≤ r.itemPrice ∧ r.createdAt ≤ now
      then r :: cleanRows now l else cleanRows now l := by
  by_cases h1 : 0 < r.itemQuantity <;> by_cases h2 : 0 ≤ r.itemPrice <;>
    by_cases h3 : r.createdAt ≤ now <;>
    simp [cleanRows, h1, h2, h3]

theorem mem_cleanRows (now : Int) (r : Order) (l : List Order)
    (h : r ∈ cleanRows now l) :
    0 < r.itemQuantity ∧ 0 ≤ r.itemPrice ∧ r.createdAt ≤ now := by
  unfold cleanRows at h
  simp only [List.mem_filter, decide_eq_true_eq] at h
  tauto

theorem c3_len_aux (now : Int) : ∀ (df : List RawOrder) (created updated : List Int),
    df.mapM (fun r => toDatetime r.createdAt) = .ok created →
    df.mapM (fun r => toDatetime r.updatedAt) = .ok updated →
    (cleanRows now ((df.zip (created.zip updated)).map mkRow)).length =
      (df.filter (keptRaw now)).length := by
  intro df
  induction df with
  | nil =>
    intro created updated hc _
    have h1 := mapM_ok_nil _ _ hc
    subst h1
    simp [cleanRows]
  | cons x df ih =>
    intro created updated hc hu
    obtain ⟨cx, cs, hcx, hcs, rfl⟩ := mapM_ok_cons _ _ _ _ hc
    obtain ⟨ux, us, hux, hus, rfl⟩ := mapM_ok_cons _ _ _ _ hu
    have hzip : ((x :: df).zip ((cx :: cs).zip (ux :: us))).map mkRow =
        mkRow (x, cx, ux) :: (df.zip (cs.zip us)).map mkRow := by
      simp
    rw [hzip, cleanRows_cons]
    have hfields : (mkRow (x, cx, ux)).itemQuantity = x.itemQuantity.getD 0 ∧
        (mkRow (x, cx, ux)).itemPrice = x.itemPrice.getD 0 ∧
        (mkRow (x, cx, ux)).createdAt = cx := ⟨rfl, rfl, rfl⟩
    by_cases hp : 0 < (mkRow (x, cx, ux)).itemQuantity ∧
        0 ≤ (mkRow (x, cx, ux)).itemPrice ∧ (mkRow (x, cx, ux)).createdAt ≤ now
    · have hk : keptRaw now x = true := by
        rw [hfields.1, hfields.2.1, hfields.2.2] at hp
        simp only [keptRaw, hcx]
        simp [hp.1, hp.2.1, hp.2.2]
      rw [if_pos hp, List.filter_cons, if_pos hk]
      simp only [List.length_cons]
      rw [ih cs us hcs hus]
    · have hk : keptRaw now x = false := by
        rw [hfields.1, hfields.2.1, hfields.2.2] at hp
        simp only [keptRaw, hcx]
        rcases not_and_or.mp hp with h | hrest
        · simp [h]
        · rcases not_and_or.mp hrest with h | h <;> simp [h]
      rw [if_neg hp, List.filter_cons, if_neg (by simp [hk])]
      exact ih cs us hcs hus

/-- C3: whenever preprocessing succeeds, every output row has
`itemQuantity > 0`, `itemPrice ≥ 0` and `createdAt ≤ now`; and the output
has exactly one row for each raw row that, after defaulting missing
price/quantity to 0, passes those checks — so a row with missing quantity
is dropped (0 is not > 0) while a row with missing price is retained with
price 0. -/
theorem c3_clean_rows (now : Int) (df : List RawOrder) (out : List Order)
    (h : load_and_preprocess_data now df = .ok out) :
    (∀ r ∈ out, 0 < r.itemQuantity ∧ 0 ≤ r.itemPrice ∧ r.createdAt ≤ now) ∧
    out.length = (df.filter (keptRaw now)).length := by
  unfold load_and_preprocess_data at h
  cases hc : df.mapM (fun r => toDatetime r.createdAt) with
  | error e =>
    rw [hc] at h
    cases h
  | ok created =>
    rw [hc] at h
    cases hu : df.mapM (fun r => toDatetime r.updatedAt) with
    | error e =>
      rw [hu] at h
      cases h
    | ok updated =>
      rw [hu] at h
      injection h with h
      subst h
      refine ⟨?_, c3_len_aux now df created updated hc hu⟩
      intro r hr
      exact mem_cleanRows now r _ hr

/-- A raw table with a missing quantity (dropped), a missing price (kept
with price 0) and a future-dated row (dropped); `now` is instant 10000. -/
def mixedRaw : List RawOrder :=
  [{ itemName := "A", itemQuantity := none, itemPrice := some 3,
     status := "completed", createdAt := "100", updatedAt := "160" },
   { itemName := "B", itemQuantity := some 2, itemPrice := none,
     status := "Pending", createdAt := "100", updatedAt := "160" },
   { itemName := "C", itemQuantity := some 3, itemPrice := some 4,
     status := "canceled", createdAt := "999999", updatedAt := "999999" }]

/-- The single surviving row of `mixedRaw`: the missing price became 0. -/
def keptB : Order :=
  { itemName := "B", itemQuantity := 2, itemPrice := 0, status := "Pending",
    createdAt := 100, updatedAt := 160, processing_time := 60, total_price := 0,
    is_completed := false, is_canceled := false }

/-- C3 (witness): on `mixedRaw` the preprocessor keeps exactly the row with
the missing price (defaulted to 0) and drops the missing-quantity row and
the future-dated row. -/
theorem c3_wit :
    (∀ r ∈ [keptB], 0 < r.itemQuantity ∧ 0 ≤ r.itemPrice ∧ r.createdAt ≤ 10000) ∧
    ([keptB] : List Order).length = (mixedRaw.filter (keptRaw 10000)).length :=
  c3_clean_rows 10000 mixedRaw [keptB] (of_decide_eq_true (by with_unfolding_all rfl))

/-- The raw row whose `createdAt` cell cannot be parsed. -/
def badCreated : RawOrder :=
  { itemName := "A", itemQuantity := some 1, itemPrice := some 2,
    status := "completed", createdAt := "garbage", updatedAt := "160" }

/-- C5 (counterexample): preprocessing a table whose `createdAt` cannot be
parsed fails with the parsing library's own error; the repository defines no
`DataFormatError` anywhere, and the surfaced message names the offending
cell value, not the offending column — `createdAt` does not occur in it. -/
theorem c5_cex :
    load_and_preprocess_data 0 [badCreated] =
      .error "Unknown datetime string format, unable to parse: garbage" ∧
    containsStr "Unknown datetime string format, unable to parse: garbage"
      "createdAt" = false := by
  exact ⟨by decide, by decide⟩

/-- C5 (amended): if parsing `createdAt` or `updatedAt` fails for any row,
preprocessing fails the whole run — the caller receives the underlying
parse error and no partial table — but the error is the parsing library's
(naming the unparseable value), not a `DataFormatError` carrying the column
name. -/
theorem c5_parse_failure_aborts (now : Int) (df : List RawOrder)
    (h : ∃ r ∈ df, (∃ e, toDatetime r.createdAt = .error e) ∨
      (∃ e, toDatetime r.updatedAt = .error e)) :
    ∃ msg, load_and_preprocess_data now df = .error msg := by
  unfold load_and_preprocess_data
  cases hc : df.mapM (fun r => toDatetime r.createdAt) with
  | error e => exact ⟨e, rfl⟩
  | ok created =>
    cases hu : df.mapM (fun r => toDatetime r.updatedAt) with
    | error e => exact ⟨e, rfl⟩
    | ok updated =>
      exfalso
      obtain ⟨r, hr, hbad⟩ := h
      rcases hbad with ⟨e, he⟩ | ⟨e, he⟩
      · obtain ⟨y, hy⟩ := mapM_ok_of_mem _ df created hc r hr
        rw [he] at hy
        cases hy
      · obtain ⟨y, hy⟩ := mapM_ok_of_mem _ df updated hu r hr
        rw [he] at hy
        cases hy

/-- The raw row whose `updatedAt` cell cannot be parsed. -/
def badUpdated : RawOrder :=
  { itemName := "A", itemQuantity := some 1, itemPrice := some 2,
    status := "completed", createdAt := "100", updatedAt := "zzz" }

/-- C5 (witness): a table whose only row has an unparseable `updatedAt`
makes the whole run fail with a parse error. -/
theorem c5_wit : ∃ msg, load_and_preprocess_data 0 [badUpdated] = .error msg :=
  c5_parse_failure_aborts 0 [badUpdated]
    ⟨badUpdated, List.mem_singleton.mpr rfl,
     Or.inr ⟨"Unknown datetime string format, unable to parse: zzz", rfl⟩⟩

/-! ## Association-list value tracking (for the ingredient claims) -/

/-- The quantity stored for a key (0 when absent), `d.get(g, 0)`. -/
def lookupAmt (g : String) (m : List (String × ℚ)) : ℚ := (lookup? g m).getD 0

/-- The total recipe quantity the entries with key `g` contribute. -/
def sumMatching (g : String) : List (String × ℚ) → ℚ
  | [] => 0
  | p :: tl => (if p.1 = g then p.2 else 0) + sumMatching g tl

/-- `recipe[item][g]`, with absent item or absent ingredient read as 0. -/
def recipeAmount (mapping : List (String × List (String × ℚ)))
    (item g : String) : ℚ :=
  match lookup? item mapping with
  | some ings => lookupAmt g ings
  | none => 0

/-- The claim-side formula for one day and one ingredient: the sum over the
item distribution of `share * point_estimate * recipe[item][g]`. -/
def specDayAmount (df : List Order)
    (mapping : List (String × List (String × ℚ)))
    (orders : ℚ) (g : String) : ℚ :=
  ((itemDistribution df).map
    (fun p => orders * p.2 * recipeAmount mapping p.1 g)).sum

theorem lookup?_eq_some_mem {α : Type} (k : String) (v : α) :
    ∀ m : List (String × α), lookup? k m = some v → (k, v) ∈ m := by
  intro m
  induction m with
  | nil => intro h; cases h
  | cons p rest ih =>
    obtain ⟨k0, v0⟩ := p
    simp only [lookup?]
    split
    · intro h
      injection h with h
      subst h
      simp_all
    · intro h
      exact List.mem_cons_of_mem _ (ih h)

theorem lookupAmt_upsertAdd (g k : String) (v : ℚ) :
    ∀ m, lookupAmt g (upsertAdd m k v) =
      lookupAmt g m + if k = g then v else 0 := by
  intro m
  induction m with
  | nil =>
    by_cases h : k = g <;> simp [upsertAdd, lookupAmt, lookup?, h]
  | cons p rest ih =>
    obtain ⟨k0, v0⟩ := p
    by_cases h0 : k0 = k
    · subst h0
      by_cases hg : k0 = g
      · subst hg
        simp [upsertAdd, lookupAmt, lookup?]
      · simp [upsertAdd, lookupAmt, lookup?, hg]
    · by_cases hg : k0 = g
      · subst hg
        have hk : ¬ k = k0 := fun h => h0 h.symm
        simp [upsertAdd, lookupAmt, lookup?, h0, hk]
      · simp only [upsertAdd, if_neg h0, lookupAmt, lookup?, if_neg hg]
        exact ih

theorem lookupAmt_itemContribution (g : String) (E : ℚ) :
    ∀ (ings : List (String × ℚ)) (acc : List (String × ℚ)),
      lookupAmt g (itemContribution acc E ings) =
        lookupAmt g acc + E * sumMatching g ings := by
  intro ings
  induction ings with
  | nil =>
    intro acc
    simp [itemContribution, sumMatching]
  | cons p tl ih =>
    intro acc
    obtain ⟨i, q⟩ := p
    simp only [itemContribution, List.foldl_cons] at *
    rw [ih (upsertAdd acc i (E * q)), lookupAmt_upsertAdd]
    simp only [sumMatching]
    by_cases hg : i = g <;> simp [hg] <;> ring

theorem distFold_cons (mapping : List (String × List (String × ℚ)))
    (orders : ℚ) (x : String × ℚ) (tl : List (String × ℚ))
    (acc : List (String × ℚ)) :
    distFold mapping orders (x :: tl) acc =
      distFold mapping orders tl
        (match lookup? x.1 mapping with
         | some ings => itemContribution acc (orders * x.2) ings
         | none => acc) := rfl

theorem lookupAmt_distFold (g : String)
    (mapping : List (String × List (String × ℚ))) (orders : ℚ) :
    ∀ (dist : List (String × ℚ)) (acc : List (String × ℚ)),
      lookupAmt g (distFold mapping orders dist acc) =
        lookupAmt g acc +
          (dist.map (fun p => orders * p.2 *
            (match lookup? p.1 mapping with
             | some ings => sumMatching g ings
             | none => 0))).sum := by
  intro dist
  induction dist with
  | nil =>
    intro acc
    simp [distFold]
  | cons x tl ih =>
    intro acc
    rw [distFold_cons]
    cases hli : lookup? x.1 mapping with
    | none =>
      simp only [hli]
      rw [ih acc]
      simp [hli]
    | some ings =>
      simp only [hli]
      rw [ih (itemContribution acc (orders * x.2) ings),
        lookupAmt_itemContribution]
      simp only [List.map_cons, List.sum_cons, hli]
      ring

theorem sumMatching_zero_of_not_mem (g : String) :
    ∀ tl : List (String × ℚ), g ∉ tl.map Prod.fst → sumMatching g tl = 0 := by
  intro tl
  induction tl with
  | nil => intro _; simp [sumMatching]
  | cons p rest ih =>
    intro h
    simp only [List.map_cons, List.mem_cons] at h
    push_neg at h
    simp only [sumMatching]
    rw [if_neg (fun hh => h.1 hh.symm), ih h.2, zero_add]

theorem sumMatching_eq_lookupAmt (g : String) :
    ∀ ings : List (String × ℚ), (ings.map Prod.fst).Nodup →
      sumMatching g ings = lookupAmt g ings := by
  intro ings
  induction ings with
  | nil => intro _; simp [sumMatching, lookupAmt, lookup?]
  | cons p tl ih =>
    intro hnd
    obtain ⟨k0, v0⟩ := p
    simp only [List.map_cons, List.nodup_cons] at hnd
    by_cases hg : k0 = g
    · subst hg
      have hz : sumMatching k0 tl = 0 :=
        sumMatching_zero_of_not_mem k0 tl hnd.1
      simp [sumMatching, lookupAmt, lookup?, hz]
    · simp only [sumMatching, lookupAmt, lookup?, if_neg hg, zero_add]
      exact ih hnd.2

theorem lookup?_map_round2 (g : String) :
    ∀ m : List (String × ℚ),
      lookup? g (m.map (fun p => (p.1, round2 p.2))) =
        (lookup? g m).map round2 := by
  intro m
  induction m with
  | nil => simp [lookup?]
  | cons p rest ih =>
    obtain ⟨k0, v0⟩ := p
    by_cases h : k0 = g <;> simp [lookup?, h, ih]

/-! ## Non-negativity tracking -/

theorem roundHalfEven_nonneg (q : ℚ) (h : 0 ≤ q) : 0 ≤ roundHalfEven q := by
  have hf : (0 : ℤ) ≤ ⌊q⌋ := Int.floor_nonneg.mpr h
  simp only [roundHalfEven]
  split_ifs <;> omega

theorem round2_nonneg (q : ℚ) (h : 0 ≤ q) : 0 ≤ round2 q := by
  unfold round2
  apply div_nonneg _ (by norm_num)
  exact_mod_cast roundHalfEven_nonneg (q * 100) (by positivity)

theorem round2_form (q : ℚ) : ∃ n : ℤ, round2 q = (n : ℚ) / 100 :=
  ⟨roundHalfEven (q * 100), rfl⟩

theorem upsertAdd_nonneg (k : String) (v : ℚ) (hv : 0 ≤ v) :
    ∀ m, (∀ p ∈ m, 0 ≤ p.2) → ∀ p ∈ upsertAdd m k v, 0 ≤ p.2 := by
  intro m
  induction m with
  | nil =>
    intro _ p hp
    simp only [upsertAdd, List.mem_singleton] at hp
    subst hp
    exact hv
  | cons x rest ih =>
    obtain ⟨k0, v0⟩ := x
    intro hm p hp
    simp only [upsertAdd] at hp
    split at hp
    · rcases List.mem_cons.mp hp with rfl | hmem
      · exact add_nonneg (hm (k0, v0) (List.mem_cons_self _ _)) hv
      · exact hm p (List.mem_cons_of_mem _ hmem)
    · rcases List.mem_cons.mp hp with rfl | hmem
      · exact hm (k0, v0) (List.mem_cons_self _ _)
      · exact ih (fun x hx => hm x (List.mem_cons_of_mem _ hx)) p hmem

theorem itemContribution_nonneg (E : ℚ) (hE : 0 ≤ E) :
    ∀ (ings : List (String × ℚ)) (acc : List (String × ℚ)),
      (∀ p ∈ ings, 0 ≤ p.2) → (∀ p ∈ acc, 0 ≤ p.2) →
      ∀ p ∈ itemContribution acc E ings, 0 ≤ p.2 := by
  intro ings
  induction ings with
  | nil =>
    intro acc _ hacc p hp
    exact hacc p hp
  | cons x tl ih =>
    intro acc hings hacc p hp
    obtain ⟨i, q⟩ := x
    simp only [itemContribution, List.foldl_cons] at hp
    refine ih (upsertAdd acc i (E * q))
      (fun y hy => hings y (List.mem_cons_of_mem _ hy)) ?_ p hp
    exact upsertAdd_nonneg i (E * q)
      (mul_nonneg hE (hings (i, q) (List.mem_cons_self _ _))) acc hacc

theorem distFold_nonneg (mapping : List (String × List (String × ℚ)))
    (orders : ℚ) (h0 : 0 ≤ orders)
    (hmap : ∀ q ∈ mapping, ∀ p ∈ q.2, 0 ≤ p.2) :
    ∀ (dist : List (String × ℚ)) (acc : List (String × ℚ)),
      (∀ p ∈ dist, 0 ≤ p.2) → (∀ p ∈ acc, 0 ≤ p.2) →
      ∀ p ∈ distFold mapping orders dist acc, 0 ≤ p.2 := by
  intro dist
  induction dist with
  | nil =>
    intro acc _ hacc p hp
    exact hacc p hp
  | cons x tl ih =>
    intro acc hdist hacc p hp
    rw [distFold_cons] at hp
    cases hli : lookup? x.1 mapping with
    | none =>
      rw [hli] at hp
      exact ih acc (fun y hy => hdist y (List.mem_cons_of_mem _ hy)) hacc p hp
    | some ings =>
      rw [hli] at hp
      refine ih _ (fun y hy => hdist y (List.mem_cons_of_mem _ hy)) ?_ p hp
      refine itemContribution_nonneg (orders * x.2)
        (mul_nonneg h0 (hdist x (List.mem_cons_self _ _))) ings acc
        (hmap (x.1, ings) (lookup?_eq_some_mem x.1 ings mapping hli)) hacc

theorem itemDistribution_nonneg (df : List Order)
    (hq : ∀ r ∈ df, 0 < r.itemQuantity) :
    ∀ p ∈ itemDistribution df, 0 ≤ p.2 := by
  intro p hp
  unfold itemDistribution at hp
  obtain ⟨it, _, rfl⟩ := List.mem_map.mp hp
  refine div_nonneg ?_ ?_
  · unfold sumQuantities
    apply List.sum_nonneg
    intro x hx
    obtain ⟨r, hr, rfl⟩ := List.mem_map.mp hx
    exact le_of_lt (hq r (List.mem_of_mem_filter hr))
  · unfold totalQuantity
    apply List.sum_nonneg
    intro x hx
    obtain ⟨r, hr, rfl⟩ := List.mem_map.mp hx
    exact le_of_lt (hq r hr)

/-! ## The outer per-day dictionary -/

theorem mem_upsertSet {α : Type} (m : List (String × α)) (k : String) (v : α) :
    ∀ p ∈ upsertSet m k v, p = (k, v) ∨ p ∈ m := by
  induction m with
  | nil =>
    intro p hp
    simp only [upsertSet, List.mem_singleton] at hp
    exact Or.inl hp
  | cons x rest ih =>
    obtain ⟨k0, v0⟩ := x
    intro p hp
    simp only [upsertSet] at hp
    split at hp
    · rcases List.mem_cons.mp hp with rfl | hmem
      · rename_i h
        exact Or.inl (by rw [h])
      · exact Or.inr (List.mem_cons_of_mem _ hmem)
    · rcases List.mem_cons.mp hp with rfl | hmem
      · exact Or.inr (List.mem_cons_self _ _)
      · rcases ih p hmem with h | h
        · exact Or.inl h
        · exact Or.inr (List.mem_cons_of_mem _ h)

theorem mem_foldl_upsertSet {α β : Type} (key : α → String) (val : α → β) :
    ∀ (l : List α) (acc : List (String × β)) (p : String × β),
      p ∈ l.foldl (fun a r => upsertSet a (key r) (val r)) acc →
      p ∈ acc ∨ ∃ r ∈ l, p = (key r, val r) := by
  intro l
  induction l with
  | nil =>
    intro acc p h
    exact Or.inl h
  | cons x tl ih =>
    intro acc p h
    simp only [List.foldl_cons] at h
    rcases ih _ p h with h2 | ⟨r, hr, rfl⟩
    · rcases mem_upsertSet acc (key x) (val x) p h2 with h3 | h3
      · exact Or.inr ⟨x, List.mem_cons_self x tl, h3⟩
      · exact Or.inl h3
    · exact Or.inr ⟨r, List.mem_cons_of_mem x hr, rfl⟩

/-! ## Claims C1 and C4 -/

/-- C1 (counterexample): the ingredient projector does NOT clamp the
forecast point estimates: feeding it a (cleaned) one-item history and a
forecast day with point estimate -10 yields the ingredient quantity -10,
which is negative.  No clamping to ≥ 0 happens anywhere on this path
(`optimize_staffing` clamps for staffing only). -/
theorem c1_cex :
    predict_ingredient_usage [burgerRow] [negDay] [("Burger", [("Flour", 1)])] 1 =
      [("1970-01-02", [("Flour", -10)])] ∧ ((-10 : ℚ) < 0) :=
  ⟨of_decide_eq_true (by with_unfolding_all rfl), by norm_num⟩

/-- C1 (amended): every per-ingredient quantity produced by the ingredient
projector is `round(·, 2)` of the projected demand, hence an integer
multiple of 1/100 (rounded to 2 decimal places); and it is non-negative
PROVIDED the point estimates used (the last `H` of the forecast) are
non-negative — the projector itself performs no clamping, so a negative
point estimate yields a negative quantity (see the counterexample). -/
theorem c1_values_rounded (df : List Order) (fc : List ForecastRow)
    (mapping : List (String × List (String × ℚ))) (H : ℕ)
    (hdf : ∀ r ∈ df, 0 < r.itemQuantity)
    (hmap : ∀ q ∈ mapping, ∀ p ∈ q.2, 0 ≤ p.2)
    (hfc : ∀ r ∈ ilocLast H fc, 0 ≤ r.yhat) :
    ∀ p ∈ predict_ingredient_usage df fc mapping H, ∀ q ∈ p.2,
      0 ≤ q.2 ∧ ∃ n : ℤ, q.2 = (n : ℚ) / 100 := by
  intro p hp q hq
  simp only [predict_ingredient_usage] at hp
  rcases @mem_foldl_upsertSet ForecastRow (List (String × ℚ))
      (fun row => fmtYmd row.ds)
      (fun row => dayIngredients (itemDistribution df) mapping row.yhat)
      (ilocLast H fc) [] p hp with h | ⟨r, hr, rfl⟩
  · cases h
  · simp only at hq
    unfold dayIngredients at hq
    obtain ⟨w, hw, rfl⟩ := List.mem_map.mp hq
    constructor
    · exact round2_nonneg w.2
        (distFold_nonneg mapping r.yhat (hfc r hr) hmap
          (itemDistribution df) [] (itemDistribution_nonneg df hdf)
          (by intro x hx; cases hx) w hw)
    · exact round2_form w.2

/-- C1 (witness): the Burger/Flour history with point estimate 50 yields
the quantity 50, which is non-negative and a multiple of 1/100. -/
theorem c1_wit :
    0 ≤ (("Flour", (50 : ℚ)) : String × ℚ).2 ∧
    ∃ n : ℤ, (("Flour", (50 : ℚ)) : String × ℚ).2 = (n : ℚ) / 100 :=
  c1_values_rounded [burgerRow] [fiftyDay] [("Burger", [("Flour", 1)])] 7
    (by intro r hr; fin_cases hr; norm_num [burgerRow])
    (by
      intro q hq p hp
      fin_cases hq
      fin_cases hp
      norm_num)
    (by
      intro r hr
      fin_cases hr
      norm_num [fiftyDay])
    ("1970-01-02", [("Flour", 50)])
    (of_decide_eq_true (by with_unfolding_all rfl))
    ("Flour", 50)
    (of_decide_eq_true (by with_unfolding_all rfl))

/-- C4: every value in the ingredient forecast is exactly
`round2 (Σ over items of share(item) * point_estimate * recipe[item][g])`,
where the share is the item's historical quantity fraction, the sum ranges
over the item distribution with items absent from the recipe contributing
zero (silently skipped), and the day comes from the last `H` forecast rows.
The recipe hypothesis says each item's ingredient list has distinct
ingredient names, as Python dict keys are. -/
theorem c4_ingredient_formula (df : List Order) (fc : List ForecastRow)
    (mapping : List (String × List (String × ℚ))) (H : ℕ)
    (hmap : ∀ q ∈ mapping, (q.2.map Prod.fst).Nodup) :
    ∀ d m, (d, m) ∈ predict_ingredient_usage df fc mapping H →
    ∀ g v, lookup? g m = some v →
    ∃ r ∈ ilocLast H fc, d = fmtYmd r.ds ∧
      v = round2 (specDayAmount df mapping r.yhat g) := by
  intro d m hp g v hv
  simp only [predict_ingredient_usage] at hp
  rcases @mem_foldl_upsertSet ForecastRow (List (String × ℚ))
      (fun row => fmtYmd row.ds)
      (fun row => dayIngredients (itemDistribution df) mapping row.yhat)
      (ilocLast H fc) [] (d, m) hp with h | ⟨r, hr, heq⟩
  · cases h
  · simp only [Prod.mk.injEq] at heq
    obtain ⟨hd, hm⟩ := heq
    refine ⟨r, hr, hd, ?_⟩
    rw [hm] at hv
    unfold dayIngredients at hv
    rw [lookup?_map_round2] at hv
    cases hl : lookup? g (distFold mapping r.yhat (itemDistribution df) []) with
    | none =>
      rw [hl] at hv
      cases hv
    | some w =>
      rw [hl] at hv
      injection hv with hv
      have hw : w = lookupAmt g (distFold mapping r.yhat (itemDistribution df) []) := by
        rw [lookupAmt, hl]
        rfl
      rw [← hv, hw, lookupAmt_distFold]
      have hnil : lookupAmt g ([] : List (String × ℚ)) = 0 := rfl
      rw [hnil, zero_add]
      congr 1
      unfold specDayAmount
      apply congrArg List.sum
      apply List.map_congr_left
      intro p _
      cases hli : lookup? p.1 mapping with
      | none => simp [recipeAmount, hli]
      | some ings =>
        simp only [recipeAmount, hli]
        rw [sumMatching_eq_lookupAmt g ings
          (hmap (p.1, ings) (lookup?_eq_some_mem p.1 ings mapping hli))]

/-- C4 (witness): with the recipe Burger to one Flour, a history of only
Burgers and a forecast day at 50, the stored Flour value 50 is exactly
`round2` of the claimed sum for that day. -/
theorem c4_wit :
    ∃ r ∈ ilocLast 7 [fiftyDay], "1970-01-02" = fmtYmd r.ds ∧
      (50 : ℚ) = round2 (specDayAmount [burgerRow]
        [("Burger", [("Flour", 1)])] r.yhat "Flour") :=
  c4_ingredient_formula [burgerRow] [fiftyDay] [("Burger", [("Flour", 1)])] 7
    (by intro q hq; fin_cases hq; simp)
    "1970-01-02" [("Flour", 50)]
    (of_decide_eq_true (by with_unfolding_all rfl))
    "Flour" 50
    (of_decide_eq_true (by with_unfolding_all rfl))

end HotelData
